import Mathlib

/-!
# Dukaan-Dost — order/inventory engine, formalised

A shallow embedding of the core of `src/app.py` (a WhatsApp storefront
assistant): the product catalog, the order ledger, order placement
(`add_order`), the status simulator (`simulate_order_flow`), the proactive
notification sweep (`check_order_updates`), the admin restock / offer
commands (`handle_admin_command_text`), and the session routing of the
webhook handler (`incoming`).

Conventions of the embedding:
* pandas data frames become Lean lists of structures; every order field is a
  `String` because `load_orders` reads the CSV with `dtype=str`;
* the handful of Python string primitives the code uses (`strip`, `lower`,
  `int(...)`, `startswith`, `split`, membership of a character) are defined
  below by structural recursion on `String.data`, so that every definition
  evaluates inside the kernel;
* all messaging (`send_whatsapp_message`) and file I/O is pure output: the
  functions below return the data that would be persisted and, where a claim
  needs it, the message text that would be sent.
-/

namespace DukaanDost

/-! ## Python string primitives, by structural recursion on `List Char` -/

/-- Leading- and trailing-whitespace removal on character lists. -/
def trimList (l : List Char) : List Char :=
  ((l.dropWhile Char.isWhitespace).reverse.dropWhile Char.isWhitespace).reverse

/-- Python `s.strip()`. -/
def pyStrip (s : String) : String := ⟨trimList s.data⟩

/-- Python `s.lower()` (the code only ever lowercases ASCII). -/
def pyLower (s : String) : String := ⟨s.data.map Char.toLower⟩

/-- Value of a digit list, most significant first. -/
def digitsVal (l : List Char) : Nat :=
  l.foldl (fun a c => a * 10 + (c.toNat - 48)) 0

/-- Parse a nonempty all-digit list; `none` otherwise. -/
def parseNatList (l : List Char) : Option Nat :=
  if l ≠ [] ∧ l.all Char.isDigit then some (digitsVal l) else none

/-- Python `int(s)` on a string: optional surrounding whitespace, an optional
sign, then decimal digits.  (The `_` digit grouping CPython also accepts is
not modelled; no caller produces it.)  `none` models the raised
`ValueError`. -/
def pyInt? (s : String) : Option Int :=
  match trimList s.data with
  | '-' :: rest => (parseNatList rest).map (fun n => -(n : Int))
  | '+' :: rest => (parseNatList rest).map (fun n => (n : Int))
  | l => (parseNatList l).map (fun n => (n : Int))

/-- Does the first list start with the second? (Python `s.startswith(p)`.) -/
def listStarts : List Char → List Char → Bool
  | _, [] => true
  | [], _ :: _ => false
  | c :: cs, p :: ps => c == p && listStarts cs ps

/-- Python `s.startswith(p)`. -/
def pyStarts (s p : String) : Bool := listStarts s.data p.data

/-- Python `s[n:]` on character counts (the code only drops ASCII
literals, where characters and bytes coincide). -/
def pyDrop (s : String) (n : Nat) : String := ⟨s.data.drop n⟩

/-- Split at the first occurrence of `sep`: Python `s.split(sep, 1)` when
`sep in s`, returning the parts before and after the first separator;
`none` when the separator is absent. -/
def splitFirst (sep : Char) : List Char → Option (List Char × List Char)
  | [] => none
  | c :: rest =>
    if c == sep then some ([], rest)
    else (splitFirst sep rest).map (fun p => (c :: p.1, p.2))

/-- Python `sep in s` for a single character. -/
def pyHasChar (s : String) (sep : Char) : Bool := s.data.contains sep

/-- Helper for `pyWords`: accumulates the current word (reversed). -/
def wordsAux : List Char → List Char → List String
  | [], acc => if acc.isEmpty then [] else [⟨acc.reverse⟩]
  | c :: rest, acc =>
    if c.isWhitespace then
      if acc.isEmpty then wordsAux rest [] else (⟨acc.reverse⟩ : String) :: wordsAux rest []
    else wordsAux rest (c :: acc)

/-- Python `s.split()` (no argument): whitespace runs collapse, no empty
words. -/
def pyWords (s : String) : List String := wordsAux s.data []

/-- Python `s.isdigit()` for ASCII text: nonempty and all digits. -/
def pyIsDigit (s : String) : Bool := !s.data.isEmpty && s.data.all Char.isDigit

/-! ## Data model -/

/-- A row of `products.csv` (columns `name, price, stock`; `load_products`
reads price and stock numerically). -/
structure Product where
  name : String
  price : Int
  stock : Int
deriving DecidableEq, Repr

/-- A row of `orders.csv`.  `load_orders` forces every column to `str`
(`dtype=str`), so all fields are strings here. -/
structure Order where
  order_id : String
  product : String
  quantity : String
  status : String
  eta : String
  payment : String
  customer : String
  date : String
deriving DecidableEq, Repr

/-! ## Catalog operations -/

/-- `product in products_df["name"].values` — exact-name membership test
used by `add_order` (app.py line 112). -/
def hasProduct (catalog : List Product) (p : String) : Bool :=
  catalog.any (fun prod => prod.name == p)

/-- `int(products_df.loc[products_df["name"] == product, "stock"].values[0])`
(app.py line 122): the stock of the first row whose name matches.  Returns 0
when the product is absent; `add_order` only reads it after the membership
check succeeds. -/
def stockOf : List Product → String → Int
  | [], _ => 0
  | prod :: rest, p => if prod.name == p then prod.stock else stockOf rest p

/-- `products_df.loc[products_df["name"] == product, "stock"] = v`
(app.py line 128): every row whose name matches gets the same new stock
value `v` (computed from the first matching row). -/
def setStockAll (catalog : List Product) (p : String) (v : Int) : List Product :=
  catalog.map (fun prod => if prod.name == p then { prod with stock := v } else prod)

/-! ## Order placement (`add_order`, app.py lines 103-163) -/

/-- Whether `df["order_id"].astype(int)` succeeds (app.py line 147); pandas
raises as soon as one id fails to parse as an integer. -/
def allNumericIds (orders : List Order) : Bool :=
  orders.all (fun o => (pyInt? o.order_id).isSome)

/-- The successfully parsed order ids, in ledger order. -/
def parsedIds (orders : List Order) : List Int :=
  orders.filterMap (fun o => pyInt? o.order_id)

/-- `df["order_id"].astype(int).max()` over a nonempty list: a fold of
`max` over the parsed ids. -/
def maxIds : List Int → Int
  | [] => 0
  | x :: xs => xs.foldl max x

/-- Order-id assignment, inline in `add_order` (app.py lines 143-150):
empty ledger → 10001; all ids numeric → `max + 1`; otherwise (the `except`
arm) → `row count + 10001`. -/
def nextOrderId (orders : List Order) : Int :=
  if orders.isEmpty then 10001
  else if allNumericIds orders then maxIds (parsedIds orders) + 1
  else (orders.length : Int) + 10001

/-- The order record appended by `add_order` (app.py lines 151-160). -/
def newOrderRow (newId : Int) (product : String) (qi : Int) (customer today : String) : Order :=
  { order_id := toString newId
    product := product
    quantity := toString qi
    status := "Processing"
    eta := "2 days"
    payment := "Cash/UPI on Delivery"
    customer := customer
    date := today }

/-- `add_order(product, qty, customer)` (app.py lines 103-163) as a pure
function of the catalog and ledger.  Returns the optional new order id
together with the catalog and ledger as persisted afterwards; a `none` id
means the function returned before saving anything, so both stores come
back unchanged.  `qty` is kept as the text the webhook received;
`add_order`'s own `int(qty)` is `pyInt?` (the webhook route converts the
same text with the same `int` before calling, so the value agrees).  The
low-stock alert (lines 132-139) is pure messaging and touches no store, so
it is elided.  `today` stands for `datetime.date.today().isoformat()`. -/
def add_order (catalog : List Product) (orders : List Order)
    (product qty customer today : String) :
    Option String × List Product × List Order :=
  if hasProduct catalog product then
    match pyInt? qty with
    | none => (none, catalog, orders)
    | some qi =>
      let cur := stockOf catalog product
      if qi > cur then (none, catalog, orders)
      else
        let catalog' := setStockAll catalog product (cur - qi)
        let newId := nextOrderId orders
        (some (toString newId), catalog', orders ++ [newOrderRow newId product qi customer today])
  else (none, catalog, orders)

/-! ## Status simulator (`simulate_order_flow`, app.py lines 359-395) -/

/-- `str(row.get("status", "")).strip().lower() == "processing"` (line 374). -/
def isProc (o : Order) : Bool := pyLower (pyStrip o.status) == "processing"

/-- `str(row.get("status", "")).strip().lower() == "shipped"` (line 381). -/
def isShip (o : Order) : Bool := pyLower (pyStrip o.status) == "shipped"

/-- One tick of `simulate_order_flow` (app.py lines 359-395), minus the
timer rescheduling: scan the ledger in stored order and mutate the first
row whose (stripped, lowercased) status is `processing` — set to
`Shipped` / eta `Tomorrow` — or, failing that at that row, `shipped` — set
to `Delivered` / eta `Delivered Today`; `break` after one mutation.  A row
matching neither test is left untouched and the scan continues. -/
def simulate_order_flow : List Order → List Order
  | [] => []
  | o :: rest =>
    if isProc o then { o with status := "Shipped", eta := "Tomorrow" } :: rest
    else if isShip o then { o with status := "Delivered", eta := "Delivered Today" } :: rest
    else o :: simulate_order_flow rest

/-! ## Notification sweep (`check_order_updates`, app.py lines 326-355) -/

/-- `last_order_status` lookup: first binding of the key, if any. -/
def cacheGet : List (String × String) → String → Option String
  | [], _ => none
  | (k, v) :: rest, key => if k == key then some v else cacheGet rest key

/-- `last_order_status[oid] = v`: overwrite the existing binding or append
a fresh one (Python dict semantics, insertion order kept). -/
def cacheSet : List (String × String) → String → String → List (String × String)
  | [], key, v => [(key, v)]
  | (k, w) :: rest, key, v =>
    if k == key then (key, v) :: rest else (k, w) :: cacheSet rest key v

/-- The content of the status-update message sent at app.py lines 345-351:
recipient and the order fields interpolated into the text.  The status shown
is the raw `row['status']`; the comparison and the cache use the stripped
form. -/
structure UpdateMsg where
  recipient : String
  oid : String
  product : String
  quantity : String
  status : String
  eta : String
  payment : String
deriving DecidableEq, Repr

/-- The message built for `row` (app.py lines 345-351); sent to the
stripped customer identity. -/
def mkUpdateMsg (o : Order) : UpdateMsg :=
  { recipient := pyStrip o.customer
    oid := o.order_id
    product := o.product
    quantity := o.quantity
    status := o.status
    eta := o.eta
    payment := o.payment }

/-- Processing of one ledger row by `check_order_updates` (app.py lines
334-351): first observation of an id seeds the cache and sends nothing;
a changed status overwrites the cache and, when the stripped customer
identity is nonempty, sends exactly one message; an unchanged status does
nothing. -/
def check_order_row (cache : List (String × String)) (o : Order) :
    List (String × String) × List UpdateMsg :=
  let oid := o.order_id
  let cur := pyStrip o.status
  match cacheGet cache oid with
  | none => (cacheSet cache oid cur, [])
  | some prev =>
    if prev ≠ cur then
      let cache' := cacheSet cache oid cur
      if pyStrip o.customer ≠ "" then (cache', [mkUpdateMsg o]) else (cache', [])
    else (cache, [])

/-- One sweep of `check_order_updates` over the whole ledger: fold
`check_order_row` across the rows, collecting the sent messages. -/
def check_order_updates (cache : List (String × String)) (orders : List Order) :
    List (String × String) × List UpdateMsg :=
  orders.foldl (fun acc o =>
    let r := check_order_row acc.1 o
    (r.1, acc.2 ++ r.2)) (cache, [])

/-! ## Admin commands (`handle_admin_command_text`, app.py lines 425-488) -/

/-- Parse of the strict `restock product,qty` command (app.py lines
428-437): the text must start with `restock `, the remainder must contain a
comma (`split(",", 1)`, both parts stripped), and the quantity must parse
as an integer.  `none` models every rejection reply. -/
def parseRestock (text : String) : Option (String × Int) :=
  if pyStarts text "restock " then
    let args := pyStrip (pyDrop text 8)
    match splitFirst ',' args.data with
    | none => none
    | some (a, b) =>
      match pyInt? ⟨trimList b⟩ with
      | none => none
      | some qty => some (⟨trimList a⟩, qty)
  else none

/-- The catalog mutation of a successful restock (app.py line 442): each
row whose name matches the item gets `qty` added to its own stock. -/
def applyRestock (catalog : List Product) (item : String) (qty : Int) : List Product :=
  catalog.map (fun prod =>
    if prod.name == item then { prod with stock := prod.stock + qty } else prod)

/-- The catalog after an admin message `text` is handled by the restock arm
of `handle_admin_command_text` (app.py lines 428-448): unchanged unless the
command parses and names an existing product. -/
def handleRestockText (catalog : List Product) (text : String) : List Product :=
  match parseRestock text with
  | none => catalog
  | some (item, qty) =>
    if hasProduct catalog item then applyRestock catalog item qty else catalog

/-- `[line.strip() for line in f.readlines() if line.strip()]` (app.py line
473): offers file lines, stripped, blanks dropped. -/
def cleanLines (fileLines : List String) : List String :=
  (fileLines.map pyStrip).filter (fun l => l ≠ "")

/-- The `remove offer <text>` arm of `handle_admin_command_text` (app.py
lines 464-482), after the offer text has been extracted and stripped: a
blank offer is the usage reply, a missing offer the not-found reply (both
`none`, no rewrite); otherwise `offers.remove(offer)` deletes the first
occurrence and the file is rewritten from the cleaned list (`some`). -/
def handleRemoveOffer (fileLines : List String) (offer : String) : Option (List String) :=
  if offer = "" then none
  else
    let offers := cleanLines fileLines
    if offers.contains offer then some (offers.erase offer) else none

/-! ## Webhook routing (`incoming`, app.py lines 499-666) -/

/-- The effect of one inbound message on the per-customer control state
(`admin_numbers` membership × `user_sessions` entry), following the branch
order of `incoming` (app.py lines 519-664).  `text` is already
`strip().lower()`-normalised (line 516).  Branches, in order: the
`admin <pin>` login attempt (lines 520-527, session untouched either way);
`exit` while admin (lines 529-532); the admin dispatch (lines 535-581,
no session sub-states); the two awaiting states, each popped before its
body runs (lines 585, 606); the greeting keywords, which also pop (line
631); menu options `2` and `3`, which arm a session (lines 641-649); every
other input leaves the session alone.  The data-store effects and replies
of the bodies live in `add_order` / `handleNewOrderText` and are not
repeated here. -/
def route (isAdmin : Bool) (session : Option String) (text : String) :
    Bool × Option String :=
  if pyStarts text "admin" = true then
    let parts := pyWords text
    if 2 ≤ parts.length ∧ parts.getD 1 "" = "1234" then (true, session)
    else (isAdmin, session)
  else if text = "exit" ∧ isAdmin = true then (false, session)
  else if isAdmin = true then (isAdmin, session)
  else if session = some "awaiting_order_id" then (isAdmin, none)
  else if session = some "awaiting_new_order" then (isAdmin, none)
  else if text = "hi" ∨ text = "hello" ∨ text = "hey" then (isAdmin, none)
  else if text = "2" then (isAdmin, some "awaiting_order_id")
  else if text = "3" then (isAdmin, some "awaiting_new_order")
  else (isAdmin, session)

/-- Reply at app.py line 613, sent whenever `add_order` returns a falsy id. -/
def combinedFailureMsg : String :=
  "⚠️ Could not place order. Product may not exist, format wrong, or insufficient stock."

/-- Reply at app.py line 624, sent when the `try` body raises — in this
branch only `int(qty)` can raise. -/
def couldNotSaveMsg : String :=
  "⚠️ Could not save order. Try again."

/-- Reply at app.py line 626, sent when the text has no comma. -/
def wrongFormatMsg : String :=
  "⚠️ Wrong format. Send: product,quantity"

/-- `product, qty = [t.strip() for t in text.split(",", 1)]` guarded by
`"," in text` (app.py lines 607-609): `none` when no comma. -/
def parseOrderText (text : String) : Option (String × String) :=
  match splitFirst ',' text.data with
  | none => none
  | some (a, b) => some (⟨trimList a⟩, ⟨trimList b⟩)

/-- The `awaiting_new_order` body of `incoming` (app.py lines 605-627):
returns the first reply sent plus the stores as persisted.  No comma →
format reply; quantity fails `int(qty)` → the exception reply (the
exception is raised before `add_order` runs, so nothing mutates);
`add_order` gives a falsy id → the combined failure reply; otherwise the
order-placed reply (the follow-up thank-you message is elided). -/
def handleNewOrderText (catalog : List Product) (orders : List Order)
    (customer text today : String) : String × List Product × List Order :=
  match parseOrderText text with
  | none => (wrongFormatMsg, catalog, orders)
  | some (product, qty) =>
    match pyInt? qty with
    | none => (couldNotSaveMsg, catalog, orders)
    | some _ =>
      match add_order catalog orders product qty customer today with
      | (none, c, o) => (combinedFailureMsg, c, o)
      | (some newId, c, o) =>
        ("📝 Order placed: " ++ qty ++ " " ++ product ++ "\nYour Order ID: " ++ newId ++
          "\n📅 Estimated Delivery Time: 2 days\n💰 Payment Mode: Cash/UPI on Delivery", c, o)

/-! ## Specification-level notions used by the theorems -/

/-- The catalog invariant of the spec: every product's stock is
non-negative. -/
def catalogNonneg (catalog : List Product) : Prop :=
  ∀ prod ∈ catalog, 0 ≤ prod.stock

/-- An order whose status is one of the three values the lifecycle engine
ever writes. -/
def validStatus (o : Order) : Prop :=
  o.status = "Processing" ∨ o.status = "Shipped" ∨ o.status = "Delivered"

/-- Work left on one order, as seen by the simulator's own tests: a
`processing` row needs two ticks, a `shipped` row one, anything else none. -/
def orderWeight (o : Order) : Nat :=
  if isProc o then 2 else if isShip o then 1 else 0

/-- Total work left on a ledger. -/
def pendingWork : List Order → Nat
  | [] => 0
  | o :: rest => orderWeight o + pendingWork rest

/-! ## Helper lemmas -/

theorem stockOf_setStockAll (catalog : List Product) (p : String) (v : Int)
    (h : hasProduct catalog p = true) :
    stockOf (setStockAll catalog p v) p = v := by
  induction catalog with
  | nil => simp [hasProduct] at h
  | cons prod rest ih =>
    by_cases hp : (prod.name == p) = true
    · simp [setStockAll, stockOf, hp]
    · have hp' : (prod.name == p) = false := by simpa using hp
      have h' : hasProduct rest p = true := by
        simpa [hasProduct, hp'] using h
      simpa [setStockAll, stockOf, hp'] using ih h'

theorem stockOf_nonneg (catalog : List Product) (p : String)
    (h : catalogNonneg catalog) (hp : hasProduct catalog p = true) :
    0 ≤ stockOf catalog p := by
  induction catalog with
  | nil => simp [hasProduct] at hp
  | cons prod rest ih =>
    by_cases hn : (prod.name == p) = true
    · simpa [stockOf, hn] using h prod (by simp)
    · have hn' : (prod.name == p) = false := by simpa using hn
      have hp' : hasProduct rest p = true := by simpa [hasProduct, hn'] using hp
      have hr : catalogNonneg rest := fun q hq => h q (List.mem_cons_of_mem _ hq)
      simpa [stockOf, hn'] using ih hr hp'

theorem catalogNonneg_setStockAll (catalog : List Product) (p : String) (v : Int)
    (h : catalogNonneg catalog) (hv : 0 ≤ v) :
    catalogNonneg (setStockAll catalog p v) := by
  intro prod hmem
  rw [setStockAll] at hmem
  obtain ⟨q, hq, hEq⟩ := List.mem_map.mp hmem
  by_cases hn : (q.name == p) = true
  · simp only [hn, if_true] at hEq
    subst hEq
    exact hv
  · have hn' : (q.name == p) = false := by simpa using hn
    simp only [hn', if_neg, Bool.false_eq_true, reduceIte] at hEq
    subst hEq
    exact h q hq

theorem catalogNonneg_applyRestock (catalog : List Product) (item : String) (qty : Int)
    (h : catalogNonneg catalog) (hq : 0 ≤ qty) :
    catalogNonneg (applyRestock catalog item qty) := by
  intro prod hmem
  rw [applyRestock] at hmem
  obtain ⟨q, hqm, hEq⟩ := List.mem_map.mp hmem
  by_cases hn : (q.name == item) = true
  · simp only [hn, if_true] at hEq
    subst hEq
    have := h q hqm
    simpa using add_nonneg this hq
  · have hn' : (q.name == item) = false := by simpa using hn
    simp only [hn', Bool.false_eq_true, reduceIte] at hEq
    subst hEq
    exact h q hqm

/-! ## Claims -/

/-- Claim C1: for a product present in the catalog and a quantity that
parses as an integer, `add_order` with sufficient stock succeeds (returning
the next order id) and persists `priorStock - q` as the product's stock;
with `q` exceeding the current stock it fails and returns the catalog and
ledger unchanged. -/
theorem place_order_stock (catalog : List Product) (orders : List Order)
    (product qty customer today : String) (qi : Int)
    (hp : hasProduct catalog product = true)
    (hq : pyInt? qty = some qi) :
    (qi ≤ stockOf catalog product →
      (add_order catalog orders product qty customer today).1
        = some (toString (nextOrderId orders))
      ∧ stockOf (add_order catalog orders product qty customer today).2.1 product
        = stockOf catalog product - qi)
    ∧ (stockOf catalog product < qi →
      add_order catalog orders product qty customer today = (none, catalog, orders)) := by
  constructor
  · intro hle
    have hng : ¬ (qi > stockOf catalog product) := not_lt.mpr hle
    refine ⟨?_, ?_⟩
    · simp [add_order, hp, hq, hng]
    · simp only [add_order, hp, hq, if_true, hng, if_false, reduceIte]
      exact stockOf_setStockAll catalog product _ hp
  · intro hlt
    simp [add_order, hp, hq, hlt]

/-- Claim C1 witness (the spec's own scenario, line 93): on a fresh catalog
with rice stock 10, `add_order("rice", 3, c)` succeeds with id 10001 and
leaves stock 7. -/
theorem place_order_stock_witness :
    (add_order [⟨"rice", 55, 10⟩] [] "rice" "3" "c" "2026-10-12").1 = some "10001"
    ∧ stockOf (add_order [⟨"rice", 55, 10⟩] [] "rice" "3" "c" "2026-10-12").2.1 "rice" = 7 := by
  have h := (place_order_stock [⟨"rice", 55, 10⟩] [] "rice" "3" "c" "2026-10-12" 3
    (by decide) (by decide)).1 (by decide)
  refine ⟨h.1.trans (by decide), h.2.trans (by decide)⟩

/-- Claim C2: failing run.  The claim says `advanceOneOrder` moves a
Shipped order to Delivered only when no Processing order exists anywhere in
the ledger.  The loop in `simulate_order_flow` instead breaks at the first
row whose status is Processing *or* Shipped: on the ledger
`[#10001 Shipped, #10002 Processing]` it delivers #10001 even though
#10002 is still Processing. -/
theorem simulator_acts_on_first_eligible_row :
    simulate_order_flow
      [⟨"10001", "rice", "1", "Shipped", "Tomorrow", "Cash/UPI on Delivery", "c1", "d"⟩,
       ⟨"10002", "oil", "2", "Processing", "2 days", "Cash/UPI on Delivery", "c2", "d"⟩]
    = [⟨"10001", "rice", "1", "Delivered", "Delivered Today", "Cash/UPI on Delivery", "c1", "d"⟩,
       ⟨"10002", "oil", "2", "Processing", "2 days", "Cash/UPI on Delivery", "c2", "d"⟩] := by
  decide

/-- Claim C4: failing run.  The claim (and spec step 2) says a quantity
that is not a positive integer is rejected with no mutation; `add_order`
never checks positivity, so quantity `-3` against stock 10 passes the
`qty_int > current_stock` test, the order is created (id 10001, quantity
`-3`) and the stock *rises* to 13. -/
theorem negative_quantity_accepted :
    add_order [⟨"rice", 55, 10⟩] [] "rice" "-3" "cust" "2026-10-12"
      = (some "10001", [⟨"rice", 55, 13⟩],
         [⟨"10001", "rice", "-3", "Processing", "2 days", "Cash/UPI on Delivery",
           "cust", "2026-10-12"⟩]) := by
  decide

/-- Claim C3: counterexample to the claim as stated.  The admin restock
command accepts a negative quantity: `restock rice,-20` on stock 10 drives
the persisted stock to `-10`, violating the `stock ≥ 0` invariant the claim
asserts for every catalog-mutating operation. -/
theorem stock_nonneg_counterexample :
    ¬ catalogNonneg (handleRestockText [⟨"rice", 55, 10⟩] "restock rice,-20") := by
  intro h
  have h10 := h ⟨"rice", 55, -10⟩ (by decide)
  exact absurd h10 (by decide)

/-- Claim C3 (amended): stock never becomes negative through order
placement, and the admin restock command preserves non-negativity whenever
the restock quantity is non-negative (a negative restock quantity can
violate it). -/
theorem stock_nonneg_preserved :
    (∀ (catalog : List Product) (orders : List Order) (product qty customer today : String),
      catalogNonneg catalog →
      catalogNonneg (add_order catalog orders product qty customer today).2.1)
    ∧ (∀ (catalog : List Product) (text item : String) (qty : Int),
      catalogNonneg catalog → parseRestock text = some (item, qty) → 0 ≤ qty →
      catalogNonneg (handleRestockText catalog text)) := by
  constructor
  · intro catalog orders product qty customer today h
    by_cases hp : hasProduct catalog product = true
    · cases hq : pyInt? qty with
      | none => simpa [add_order, hp, hq] using h
      | some qi =>
        by_cases hgt : qi > stockOf catalog product
        · simpa [add_order, hp, hq, hgt] using h
        · have hle : qi ≤ stockOf catalog product := not_lt.mp hgt
          have hcur : 0 ≤ stockOf catalog product := stockOf_nonneg _ _ h hp
          have hv : 0 ≤ stockOf catalog product - qi := by omega
          simpa [add_order, hp, hq, hgt] using
            catalogNonneg_setStockAll catalog product _ h hv
    · have hp' : hasProduct catalog product = false := by simpa using hp
      simpa [add_order, hp'] using h
  · intro catalog text item qty h hparse hq
    simp only [handleRestockText, hparse]
    by_cases hp : hasProduct catalog item = true
    · simpa [hp] using catalogNonneg_applyRestock catalog item qty h hq
    · have hp' : hasProduct catalog item = false := by simpa using hp
      simpa [hp'] using h

/-- Claim C3 witness (the spec's own scenario, line 94): `restock rice,50`
on stock 7 keeps the catalog non-negative. -/
theorem stock_nonneg_preserved_witness :
    catalogNonneg (handleRestockText [⟨"rice", 55, 7⟩] "restock rice,50") := by
  refine stock_nonneg_preserved.2 [⟨"rice", 55, 7⟩] "restock rice,50" "rice" 50
    ?_ (by decide) (by decide)
  intro prod hmem
  fin_cases hmem
  decide

theorem foldl_max_bounds (l : List Int) (a : Int) :
    a ≤ l.foldl max a ∧ ∀ x ∈ l, x ≤ l.foldl max a := by
  induction l generalizing a with
  | nil => exact ⟨le_refl a, by simp⟩
  | cons y ys ih =>
    have h := ih (max a y)
    refine ⟨le_trans (le_max_left a y) h.1, ?_⟩
    intro x hx
    rcases List.mem_cons.mp hx with hxy | hxs
    · subst hxy
      exact le_trans (le_max_right a x) h.1
    · exact h.2 x hxs

theorem mem_le_maxIds (l : List Int) (x : Int) (hx : x ∈ l) : x ≤ maxIds l := by
  cases l with
  | nil => cases hx
  | cons a as =>
    rcases List.mem_cons.mp hx with h | h
    · subst h
      exact (foldl_max_bounds as x).1
    · exact (foldl_max_bounds as a).2 x h

/-- Claim C5: on an empty ledger the assigned id is 10001; on a nonempty
ledger whose ids all parse as integers the assigned id is
`max(existing ids) + 1`, strictly above every existing id (so the appended
id is fresh and the stored sequence stays strictly increasing under
repeated placement); when some id is non-numeric the fallback is
`row count + 10001`. -/
theorem order_id_assignment :
    nextOrderId [] = 10001
    ∧ (∀ orders : List Order, orders ≠ [] → allNumericIds orders = true →
        ∀ o ∈ orders, ∀ i : Int, pyInt? o.order_id = some i → i < nextOrderId orders)
    ∧ (∀ orders : List Order, orders ≠ [] → allNumericIds orders = false →
        nextOrderId orders = (orders.length : Int) + 10001) := by
  refine ⟨rfl, ?_, ?_⟩
  · intro orders hne hnum o ho i hi
    have hmem : i ∈ parsedIds orders :=
      List.mem_filterMap.mpr ⟨o, ho, hi⟩
    have hle : i ≤ maxIds (parsedIds orders) := mem_le_maxIds _ i hmem
    have hE : orders.isEmpty = false := by
      simpa [List.isEmpty_iff] using hne
    rw [nextOrderId, hE]
    simpa [hnum] using Int.lt_add_one_iff.mpr hle
  · intro orders hne hnum
    have hE : orders.isEmpty = false := by
      simpa [List.isEmpty_iff] using hne
    rw [nextOrderId, hE]
    simp [hnum]

/-- Claim C5 witness: on the ledger with ids 10001, 10002 the existing id
10002 is below the next id, and a ledger whose single id is the non-numeric
`x` falls back to `1 + 10001`. -/
theorem order_id_assignment_witness :
    (10002 : Int)
      < nextOrderId
        [⟨"10001", "rice", "1", "Processing", "2 days", "p", "c", "d"⟩,
         ⟨"10002", "oil", "2", "Processing", "2 days", "p", "c", "d"⟩]
    ∧ nextOrderId [⟨"x", "rice", "1", "Processing", "2 days", "p", "c", "d"⟩]
        = (1 : Int) + 10001 := by
  constructor
  · exact order_id_assignment.2.1
      [⟨"10001", "rice", "1", "Processing", "2 days", "p", "c", "d"⟩,
       ⟨"10002", "oil", "2", "Processing", "2 days", "p", "c", "d"⟩]
      (by decide) (by decide)
      ⟨"10002", "oil", "2", "Processing", "2 days", "p", "c", "d"⟩
      (by decide) 10002 (by decide)
  · exact order_id_assignment.2.2
      [⟨"x", "rice", "1", "Processing", "2 days", "p", "c", "d"⟩]
      (by decide) (by decide)

/-- Claim C6: the notification sweep's treatment of one observed row — an
id not yet in the `last_order_status` cache seeds the cache and sends
nothing; a cached id whose observed status differs updates the cache and
sends exactly one status-update message to the order's customer, but only
when the stripped customer identity is nonempty (the cache still updates
when it is empty); an unchanged status sends nothing. -/
theorem notification_cache (cache : List (String × String)) (o : Order) :
    (cacheGet cache o.order_id = none →
      check_order_row cache o = (cacheSet cache o.order_id (pyStrip o.status), []))
    ∧ (∀ prev, cacheGet cache o.order_id = some prev → prev ≠ pyStrip o.status →
        pyStrip o.customer ≠ "" →
        check_order_row cache o
          = (cacheSet cache o.order_id (pyStrip o.status), [mkUpdateMsg o])
        ∧ (check_order_row cache o).2.length = 1
        ∧ (mkUpdateMsg o).recipient = pyStrip o.customer)
    ∧ (∀ prev, cacheGet cache o.order_id = some prev → prev ≠ pyStrip o.status →
        pyStrip o.customer = "" →
        check_order_row cache o = (cacheSet cache o.order_id (pyStrip o.status), []))
    ∧ (∀ prev, cacheGet cache o.order_id = some prev → prev = pyStrip o.status →
        check_order_row cache o = (cache, [])) := by
  refine ⟨?_, ?_, ?_, ?_⟩
  · intro h
    simp [check_order_row, h]
  · intro prev hprev hne hcust
    refine ⟨?_, ?_, rfl⟩
    · simp [check_order_row, hprev, hne, hcust]
    · simp [check_order_row, hprev, hne, hcust]
  · intro prev hprev hne hcust
    simp [check_order_row, hprev, hne, hcust]
  · intro prev hprev hEq
    simp [check_order_row, hprev, hEq]

/-- Claim C6 witness: an order first observed as Processing only seeds the
cache; once cached, observing it as Shipped sends exactly one message to
its customer. -/
theorem notification_cache_witness :
    check_order_row [] ⟨"10001", "rice", "3", "Processing", "2 days", "p", "9190", "d"⟩
      = ([("10001", "Processing")], [])
    ∧ (check_order_row [("10001", "Processing")]
        ⟨"10001", "rice", "3", "Shipped", "Tomorrow", "p", "9190", "d"⟩).2.length = 1 := by
  constructor
  · exact (notification_cache []
      ⟨"10001", "rice", "3", "Processing", "2 days", "p", "9190", "d"⟩).1 (by decide)
  · exact ((notification_cache [("10001", "Processing")]
      ⟨"10001", "rice", "3", "Shipped", "Tomorrow", "p", "9190", "d"⟩).2.1
      "Processing" (by decide) (by decide) (by decide)).2.1

/-- Claim C8: counterexample to the claim as stated.  A non-admin customer
whose session is `awaiting_order_id` sends `admin 9999`: the admin-login
branch runs before the session branches (app.py lines 520-527) and never
clears the session, so the armed prompt survives the message. -/
theorem session_not_cleared_by_admin_text :
    (route false (some "awaiting_order_id") "admin 9999").2
      = some "awaiting_order_id" := by
  decide

/-- Claim C8 (amended): for a non-admin customer in `awaiting_order_id` or
`awaiting_new_order`, any inbound message that does not start with `admin`
clears the session state regardless of the embedded operation's outcome;
a message starting with `admin` is consumed by the login branch first and
leaves the session armed. -/
theorem session_single_use (session : Option String) (text : String)
    (hs : session = some "awaiting_order_id" ∨ session = some "awaiting_new_order")
    (ht : pyStarts text "admin" = false) :
    (route false session text).2 = none := by
  rcases hs with h | h <;> subst h <;> simp [route, ht]

/-- Claim C8 witness (the spec's own scenario, line 92): the non-digit text
`abc` sent while awaiting an order id clears the awaiting state. -/
theorem session_single_use_witness :
    (route false (some "awaiting_order_id") "abc").2 = none :=
  session_single_use (some "awaiting_order_id") "abc" (Or.inl rfl) (by decide)

/-- Claim C9: `remove offer <text>` on an offers file containing the target
(after stripping each line and dropping blanks) removes exactly the first
occurrence — every later duplicate stays — reports success (`some`), and
the rewritten file holds the cleaned lines, so blank lines are gone. -/
theorem remove_offer_first_occurrence (fileLines : List String) (offer : String)
    (hne : offer ≠ "") (hmem : offer ∈ cleanLines fileLines) :
    ∃ pre post, cleanLines fileLines = pre ++ offer :: post
      ∧ offer ∉ pre
      ∧ handleRemoveOffer fileLines offer = some (pre ++ post)
      ∧ "" ∉ pre ++ post := by
  obtain ⟨pre, post, hpre, hsplit, herase⟩ := List.exists_erase_eq hmem
  refine ⟨pre, post, hsplit, hpre, ?_, ?_⟩
  · simp [handleRemoveOffer, hne, hmem, herase]
  · intro hbad
    have hsb : "" ∈ cleanLines fileLines := by
      rw [hsplit]
      rcases List.mem_append.mp hbad with h | h
      · exact List.mem_append.mpr (Or.inl h)
      · exact List.mem_append.mpr (Or.inr (List.mem_cons_of_mem _ h))
    have := (List.mem_filter.mp hsb).2
    simp at this

/-- Claim C9 witness: on file lines `["a", "x", "", "x"]` removing `x`
keeps the later duplicate and drops the blank line. -/
theorem remove_offer_first_occurrence_witness :
    ∃ pre post, cleanLines ["a", "x", "", "x"] = pre ++ "x" :: post
      ∧ "x" ∉ pre
      ∧ handleRemoveOffer ["a", "x", "", "x"] "x" = some (pre ++ post)
      ∧ "" ∉ pre ++ post :=
  remove_offer_first_occurrence ["a", "x", "", "x"] "x" (by decide) (by decide)

/-- Claim C10: `add_order` returns the same failure value `none` for all
three failure causes — unknown product, quantity that fails `int()`, and
insufficient stock — and the webhook's new-order branch answers any
`add_order` failure with the one combined failure message, so the customer
reply does not distinguish the causes. -/
theorem order_failure_collapsed (catalog : List Product) (orders : List Order)
    (product qty customer today : String) :
    (hasProduct catalog product = false →
      (add_order catalog orders product qty customer today).1 = none)
    ∧ (pyInt? qty = none →
      (add_order catalog orders product qty customer today).1 = none)
    ∧ (∀ qi : Int, pyInt? qty = some qi → stockOf catalog product < qi →
      (add_order catalog orders product qty customer today).1 = none)
    ∧ (∀ text p q, parseOrderText text = some (p, q) → (pyInt? q).isSome →
      (add_order catalog orders p q customer today).1 = none →
      (handleNewOrderText catalog orders customer text today).1 = combinedFailureMsg) := by
  refine ⟨?_, ?_, ?_, ?_⟩
  · intro h
    simp [add_order, h]
  · intro h
    by_cases hp : hasProduct catalog product = true
    · simp [add_order, hp, h]
    · have hp' : hasProduct catalog product = false := by simpa using hp
      simp [add_order, hp']
  · intro qi hq hlt
    by_cases hp : hasProduct catalog product = true
    · simp [add_order, hp, hq, hlt]
    · have hp' : hasProduct catalog product = false := by simpa using hp
      simp [add_order, hp']
  · intro text p q hparse hq hfail
    obtain ⟨qi, hqi⟩ := Option.isSome_iff_exists.mp hq
    rcases hadd : add_order catalog orders p q customer today with ⟨oid, c, os⟩
    rw [hadd] at hfail
    simp only at hfail
    subst hfail
    simp [handleNewOrderText, hparse, hqi, hadd]

/-- Claim C10 witness (the spec's own scenario, line 95): ordering the
absent product `salt` yields the combined failure reply. -/
theorem order_failure_collapsed_witness :
    (handleNewOrderText [⟨"rice", 55, 10⟩] [] "9190" "salt,1" "2026-10-12").1
      = combinedFailureMsg :=
  (order_failure_collapsed [⟨"rice", 55, 10⟩] [] "salt" "1" "9190" "2026-10-12").2.2.2
    "salt,1" "salt" "1" (by decide) (by decide) (by decide)

theorem isProc_of_processing (o : Order) (h : o.status = "Processing") :
    isProc o = true := by
  simp only [isProc, h]
  decide

theorem isShip_of_shipped (o : Order) (h : o.status = "Shipped") :
    isShip o = true := by
  simp only [isShip, h]
  decide

theorem delivered_of_weight_zero (o : Order) (hv : validStatus o)
    (hw : orderWeight o = 0) : o.status = "Delivered" := by
  rcases hv with h | h | h
  · rw [orderWeight, isProc_of_processing o h] at hw
    simp at hw
  · have hP : isProc o = false := by
      simp only [isProc, h]
      decide
    rw [orderWeight, hP, isShip_of_shipped o h] at hw
    simp at hw
  · exact h

theorem not_eligible_of_weight_zero (o : Order) (hw : orderWeight o = 0) :
    isProc o = false ∧ isShip o = false := by
  by_cases hP : isProc o = true
  · rw [orderWeight, hP] at hw
    simp at hw
  · have hP' : isProc o = false := by simpa using hP
    by_cases hS : isShip o = true
    · rw [orderWeight, hP', hS] at hw
      simp at hw
    · exact ⟨hP', by simpa using hS⟩

theorem orderWeight_congr (o o' : Order) (h : o.status = o'.status) :
    orderWeight o = orderWeight o' := by
  simp [orderWeight, isProc, isShip, h]

theorem pending_step (L : List Order) (hpos : 0 < pendingWork L) :
    pendingWork (simulate_order_flow L) + 1 = pendingWork L := by
  induction L with
  | nil => simp [pendingWork] at hpos
  | cons o rest ih =>
    by_cases hP : isProc o = true
    · have h2 : orderWeight o = 2 := by simp [orderWeight, hP]
      have h1 : orderWeight { o with status := "Shipped", eta := "Tomorrow" } = 1 :=
        (orderWeight_congr _ ⟨"", "", "", "Shipped", "", "", "", ""⟩ rfl).trans (by decide)
      simp only [simulate_order_flow, hP, if_true, pendingWork, h1, h2]
      omega
    · have hP' : isProc o = false := by simpa using hP
      by_cases hS : isShip o = true
      · have h1 : orderWeight o = 1 := by simp [orderWeight, hP', hS]
        have h0 : orderWeight { o with status := "Delivered", eta := "Delivered Today" } = 0 :=
          (orderWeight_congr _ ⟨"", "", "", "Delivered", "", "", "", ""⟩ rfl).trans (by decide)
        simp only [simulate_order_flow, hP', hS, Bool.false_eq_true, reduceIte, if_true,
          pendingWork, h0, h1]
        omega
      · have hS' : isShip o = false := by simpa using hS
        have h0 : orderWeight o = 0 := by simp [orderWeight, hP', hS']
        have hpos' : 0 < pendingWork rest := by
          simp only [pendingWork, h0, Nat.zero_add] at hpos
          exact hpos
        have hrec := ih hpos'
        simp only [simulate_order_flow, hP', hS', Bool.false_eq_true, reduceIte,
          pendingWork, h0]
        omega

theorem valid_step (L : List Order) (h : ∀ o ∈ L, validStatus o) :
    ∀ o ∈ simulate_order_flow L, validStatus o := by
  induction L with
  | nil => simp [simulate_order_flow]
  | cons o rest ih =>
    by_cases hP : isProc o = true
    · intro x hx
      simp only [simulate_order_flow, hP, if_true] at hx
      rcases List.mem_cons.mp hx with hxo | hxr
      · subst hxo
        exact Or.inr (Or.inl rfl)
      · exact h x (List.mem_cons_of_mem _ hxr)
    · have hP' : isProc o = false := by simpa using hP
      by_cases hS : isShip o = true
      · intro x hx
        simp only [simulate_order_flow, hP', hS, Bool.false_eq_true, reduceIte, if_true] at hx
        rcases List.mem_cons.mp hx with hxo | hxr
        · subst hxo
          exact Or.inr (Or.inr rfl)
        · exact h x (List.mem_cons_of_mem _ hxr)
      · have hS' : isShip o = false := by simpa using hS
        intro x hx
        simp only [simulate_order_flow, hP', hS', Bool.false_eq_true, reduceIte] at hx
        rcases List.mem_cons.mp hx with hxo | hxr
        · subst hxo
          exact h x (List.mem_cons_self _ _)
        · exact ih (fun y hy => h y (List.mem_cons_of_mem _ hy)) x hxr

theorem pending_zero (L : List Order) (h : ∀ o ∈ L, validStatus o)
    (hz : pendingWork L = 0) :
    simulate_order_flow L = L ∧ ∀ o ∈ L, o.status = "Delivered" := by
  induction L with
  | nil => exact ⟨rfl, by simp⟩
  | cons o rest ih =>
    have hsum : orderWeight o = 0 ∧ pendingWork rest = 0 := by
      rw [pendingWork] at hz
      omega
    obtain ⟨hP', hS'⟩ := not_eligible_of_weight_zero o hsum.1
    have hrest := ih (fun y hy => h y (List.mem_cons_of_mem _ hy)) hsum.2
    constructor
    · simp only [simulate_order_flow, hP', hS', Bool.false_eq_true, reduceIte, hrest.1]
    · intro x hx
      rcases List.mem_cons.mp hx with hxo | hxr
      · subst hxo
        exact delivered_of_weight_zero x (h x (List.mem_cons_self _ _)) hsum.1
      · exact hrest.2 x hxr

theorem pending_iter (k : Nat) :
    ∀ L : List Order, (∀ o ∈ L, validStatus o) → pendingWork L ≤ k →
      pendingWork (simulate_order_flow^[k] L) = 0
      ∧ ∀ o ∈ simulate_order_flow^[k] L, validStatus o := by
  induction k with
  | zero =>
    intro L h hle
    exact ⟨Nat.le_zero.mp hle, h⟩
  | succ k ih =>
    intro L h hle
    by_cases hz : pendingWork L = 0
    · have hfix := (pending_zero L h hz).1
      rw [Function.iterate_succ_apply, hfix]
      exact ih L h (by omega)
    · have hpos : 0 < pendingWork L := Nat.pos_of_ne_zero hz
      have hdec := pending_step L hpos
      rw [Function.iterate_succ_apply]
      exact ih (simulate_order_flow L) (valid_step L h) (by omega)

theorem pending_le_twice_length (L : List Order) : pendingWork L ≤ 2 * L.length := by
  induction L with
  | nil => simp [pendingWork]
  | cons o rest ih =>
    have hw : orderWeight o ≤ 2 := by
      by_cases h1 : isProc o = true
      · simp [orderWeight, h1]
      · by_cases h2 : isShip o = true <;> simp [orderWeight, h1, h2]
    rw [pendingWork, List.length_cons]
    omega

/-- Claim C7: on a ledger whose statuses all lie in
`{Processing, Shipped, Delivered}`, iterating `simulate_order_flow` twice
the ledger length makes every order Delivered, and the resulting ledger is
a fixpoint of `simulate_order_flow`. -/
theorem simulator_drains_ledger (L : List Order) (h : ∀ o ∈ L, validStatus o) :
    (∀ o ∈ simulate_order_flow^[2 * L.length] L, o.status = "Delivered")
    ∧ simulate_order_flow (simulate_order_flow^[2 * L.length] L)
        = simulate_order_flow^[2 * L.length] L := by
  obtain ⟨hz, hv⟩ := pending_iter (2 * L.length) L h (pending_le_twice_length L)
  obtain ⟨hfix, hdel⟩ := pending_zero _ hv hz
  exact ⟨hdel, hfix⟩

/-- Claim C7 witness: a two-order ledger (one Processing, one Shipped) is
fully Delivered after `2 * 2` ticks and stays put afterwards. -/
theorem simulator_drains_ledger_witness :
    (∀ o ∈ simulate_order_flow^[2 * (List.length
        [⟨"10001", "rice", "1", "Processing", "2 days", "p", "c1", "d"⟩,
         (⟨"10002", "oil", "2", "Shipped", "Tomorrow", "p", "c2", "d"⟩ : Order)])]
        [⟨"10001", "rice", "1", "Processing", "2 days", "p", "c1", "d"⟩,
         ⟨"10002", "oil", "2", "Shipped", "Tomorrow", "p", "c2", "d"⟩],
      o.status = "Delivered")
    ∧ simulate_order_flow (simulate_order_flow^[2 * (List.length
        [⟨"10001", "rice", "1", "Processing", "2 days", "p", "c1", "d"⟩,
         (⟨"10002", "oil", "2", "Shipped", "Tomorrow", "p", "c2", "d"⟩ : Order)])]
        [⟨"10001", "rice", "1", "Processing", "2 days", "p", "c1", "d"⟩,
         ⟨"10002", "oil", "2", "Shipped", "Tomorrow", "p", "c2", "d"⟩])
      = simulate_order_flow^[2 * (List.length
        [⟨"10001", "rice", "1", "Processing", "2 days", "p", "c1", "d"⟩,
         (⟨"10002", "oil", "2", "Shipped", "Tomorrow", "p", "c2", "d"⟩ : Order)])]
        [⟨"10001", "rice", "1", "Processing", "2 days", "p", "c1", "d"⟩,
         ⟨"10002", "oil", "2", "Shipped", "Tomorrow", "p", "c2", "d"⟩] := by
  refine simulator_drains_ledger
    [⟨"10001", "rice", "1", "Processing", "2 days", "p", "c1", "d"⟩,
     ⟨"10002", "oil", "2", "Shipped", "Tomorrow", "p", "c2", "d"⟩] ?_
  intro o ho
  fin_cases ho
  · exact Or.inl rfl
  · exact Or.inr (Or.inl rfl)

end DukaanDost
